import Mathlib

/-!
Shallow embedding of two slices of the copr repository:

* `src/rpmbuild/copr_rpmbuild/providers/__init__.py` — the source-provider
  factory (`factory`).
* `src/frontend/coprs_frontend/coprs/logic/complex_logic.py` — the
  cross-entity operations facade (`ComplexLogic`).

Collaborators that the facade calls (`BuildsLogic`, `CoprsLogic`,
`UsersLogic`, the flask session) are not part of the given sources; they
are modelled from the spec's description of their interfaces, each marked
`Modelled from the spec:` in its doc comment.  Database state is passed
explicitly; exceptions become `Except`/`Option` values; the sequence of
collaborator invocations is recorded as an event trace so that ordering
and frame properties can be stated.
-/

deriving instance DecidableEq for Except

namespace CoprRepo

/-! ## Source provider factory (`copr_rpmbuild/providers/__init__.py`) -/

/-- Modelled from the spec: the `SourceType` enumeration lives in
`copr_rpmbuild/helpers.py`, which is not among the given sources.  The
spec describes it as the closed enumeration
{link, upload, rubygems, pypi, scm, custom}.  The constructor `other`
stands for any Python value that is not a recognized member of the
enumeration (the factory in the source accepts an arbitrary value and
fails by `KeyError` on unmapped ones). -/
inductive SourceTypeVal where
  | link
  | upload
  | rubygems
  | pypi
  | scm
  | custom
  | other (n : Nat)
  deriving DecidableEq, Repr

/-- The provider classes imported by `providers/__init__.py`. -/
inductive Provider where
  | SpecUrlProvider
  | RubyGemsProvider
  | PyPIProvider
  | ScmProvider
  | CustomProvider
  deriving DecidableEq, Repr

/-- The error raised by `factory` on an unmapped source type: the source
raises `RuntimeError("No provider associated with this source type")`
(the spec calls this abstract error `ConfigurationError`). -/
inductive FactoryError where
  | runtimeError (message : String)
  deriving DecidableEq, Repr

/-- Embeds `factory(source_type)` from
`src/rpmbuild/copr_rpmbuild/providers/__init__.py`: dictionary dispatch on
the source type; a `KeyError` (unmapped key) is caught and re-raised as
`RuntimeError("No provider associated with this source type")`. -/
def factory (source_type : SourceTypeVal) : Except FactoryError Provider :=
  match source_type with
  | .link => .ok .SpecUrlProvider
  | .upload => .ok .SpecUrlProvider
  | .rubygems => .ok .RubyGemsProvider
  | .pypi => .ok .PyPIProvider
  | .scm => .ok .ScmProvider
  | .custom => .ok .CustomProvider
  | .other _ => .error (.runtimeError "No provider associated with this source type")

/-- The message carried by a `factory` error, if the result is an error. -/
def factoryErrorMessage (r : Except FactoryError Provider) : Option String :=
  match r with
  | .error (.runtimeError m) => some m
  | .ok _ => none

/-! ## Data model for the cross-entity operations facade -/

/-- A build status, from the status enumeration used by
`ComplexLogic.get_queues_size` (`StatusEnum`). -/
inductive BuildStatus where
  | waiting
  | running
  | importing
  | succeeded
  | failed
  deriving DecidableEq, Repr

/-- A persisted build row.  `inProgressAction` models the condition under
which the Build Repository's delete raises `ActionInProgressException`. -/
structure Build where
  id : Nat
  coprId : Nat
  status : BuildStatus
  inProgressAction : Bool
  deriving DecidableEq, Repr

/-- A persisted project ("copr") row; owned by a user or a group
(`groupId = some g` when group-owned).  `inProgressAction` models the
condition under which the project-delete primitive raises
`ActionInProgressException`. -/
structure Copr where
  id : Nat
  name : String
  groupId : Option Nat
  inProgressAction : Bool
  deriving DecidableEq, Repr

/-- A persisted group row, identified by an alias, with a membership list
of user names. -/
structure Group where
  id : Nat
  groupAlias : String
  members : List String
  deriving DecidableEq, Repr

/-- The current actor (`flask.g.user`). -/
structure User where
  name : String
  deriving DecidableEq, Repr

/-- The persisted state the facade operates on.  `users` is carried so
that frame properties can speak about stored users; no shown operation
touches it. -/
structure DB where
  coprs : List Copr
  builds : List Build
  groups : List Group
  users : List User
  deriving DecidableEq, Repr

/-- Authorization oracle consulted by the delete primitives (the source
delegates rights checking to the collaborators; the spec says deletion
"requires the deleting actor to hold sufficient rights"). -/
structure Rights where
  canDeleteBuild : User → Build → Bool
  canDeleteCopr : User → Copr → Bool

/-- The errors the delete collaborators raise:
`ActionInProgressException` and `InsufficientRightsException`. -/
inductive DeleteError where
  | actionInProgress
  | insufficientRights
  deriving DecidableEq, Repr

/-- One collaborator invocation made by `delete_copr`, recording the
acting user's name and the target row's id. -/
inductive Event where
  | deleteBuild (userName : String) (buildId : Nat)
  | deleteCopr (userName : String) (coprId : Nat)
  deriving DecidableEq, Repr

/-! ## Collaborators (modelled from the spec) -/

/-- Modelled from the spec: `BuildsLogic.get_multiple_by_copr(copr=copr)`
(the Build Repository's `get_builds_by_project(project)`): the builds
belonging to the given project. -/
def get_multiple_by_copr (db : DB) (copr : Copr) : List Build :=
  db.builds.filter (fun b => b.coprId = copr.id)

/-- Modelled from the spec: `BuildsLogic.delete_build(actor, build)` —
"fails with ActionInProgress|InsufficientRights"; on success the build
row is removed from persisted storage. -/
def delete_build (rights : Rights) (db : DB) (user : User) (b : Build) :
    Except DeleteError DB :=
  if b.inProgressAction then .error .actionInProgress
  else if rights.canDeleteBuild user b then
    .ok { db with builds := db.builds.filter (fun x => x.id ≠ b.id) }
  else .error .insufficientRights

/-- Modelled from the spec: `CoprsLogic.delete_unsafe(actor, project)` —
the project-deletion primitive; per the data model, project deletion
"requires no in-progress build-modifying action and requires the deleting
actor to hold sufficient rights"; on success the project row is removed. -/
def delete_unsafe (rights : Rights) (db : DB) (user : User) (copr : Copr) :
    Except DeleteError DB :=
  if copr.inProgressAction then .error .actionInProgress
  else if rights.canDeleteCopr user copr then
    .ok { db with coprs := db.coprs.filter (fun x => x.id ≠ copr.id) }
  else .error .insufficientRights

/-- The two ways a SQLAlchemy `.one()` call fails: zero rows
(`NoResultFound`) or more than one row (`MultipleResultsFound`). -/
inductive OneError where
  | noResultFound
  | multipleResultsFound
  deriving DecidableEq, Repr

/-- SQLAlchemy `.one()` on a materialized query result: exactly one row
or an error. -/
def one {α : Type} (rows : List α) : Except OneError α :=
  match rows with
  | [] => .error .noResultFound
  | [x] => .ok x
  | _ :: _ :: _ => .error .multipleResultsFound

/-- Modelled from the spec: `UsersLogic.get_group_by_alias(name)` — a
queryable of groups with the given alias. -/
def get_group_by_alias (db : DB) (name : String) : List Group :=
  db.groups.filter (fun g => g.groupAlias = name)

/-- Modelled from the spec: `CoprsLogic.get_by_group_id(group_id, name,
with_mock_chroots=True)` — a queryable of projects owned by the given
group with the given name (`with_mock_chroots` is an eager-loading flag
with no effect on which rows match). -/
def get_by_group_id (db : DB) (group_id : Nat) (name : String) : List Copr :=
  db.coprs.filter (fun c => c.groupId = some group_id ∧ c.name = name)

/-- Modelled from the spec: `UsersLogic.get_groups_by_names_list(names)`
(the User/Group Repository's `get_groups_by_names(names)`): a queryable
of the groups whose alias appears in the list. -/
def get_groups_by_names_list (db : DB) (names : List String) : List Group :=
  db.groups.filter (fun g => g.groupAlias ∈ names)

/-! ## `ComplexLogic` (from `coprs/logic/complex_logic.py`) -/

/-- The `for build in builds_query:` loop of `ComplexLogic.delete_copr`:
delete each build in order; a raised exception aborts the loop, leaving
the storage as of the raise.  Returns the storage, the propagated
exception if any, and the trace of `delete_build` invocations. -/
def delete_builds_loop (rights : Rights) (user : User) (db : DB) :
    List Build → DB × Option DeleteError × List Event
  | [] => (db, none, [])
  | b :: bs =>
    match delete_build rights db user b with
    | .error e => (db, some e, [.deleteBuild user.name b.id])
    | .ok db1 =>
      let r := delete_builds_loop rights user db1 bs
      (r.1, r.2.1, .deleteBuild user.name b.id :: r.2.2)

/-- Embeds `ComplexLogic.delete_copr(copr)`: materialize the project's
builds, delete each with the ambient actor (`flask.g.user`), then call
`CoprsLogic.delete_unsafe`.  Exceptions propagate, aborting the rest. -/
def delete_copr (rights : Rights) (db : DB) (user : User) (copr : Copr) :
    DB × Option DeleteError × List Event :=
  let builds := get_multiple_by_copr db copr
  let r := delete_builds_loop rights user db builds
  match r.2.1 with
  | some e => (r.1, some e, r.2.2)
  | none =>
    match delete_unsafe rights r.1 user copr with
    | .error e => (r.1, some e, r.2.2 ++ [.deleteCopr user.name copr.id])
    | .ok db2 => (db2, none, r.2.2 ++ [.deleteCopr user.name copr.id])

/-- The error surfaced by the safe lookups: either the application's
`ObjectNotFound(message=...)` or an uncaught SQLAlchemy
`MultipleResultsFound` (the source catches only `NoResultFound`). -/
inductive LookupError where
  | objectNotFound (message : String)
  | multipleResultsFound
  deriving DecidableEq, Repr

/-- Whether a lookup result is a raised `ObjectNotFound` (the spec's
`NotFound`), with any message. -/
def isObjectNotFoundErr {α : Type} : Except LookupError α → Bool
  | .error (.objectNotFound _) => true
  | _ => false

/-- Embeds `ComplexLogic.get_group_by_name_safe(group_name)`: call
`.one()` on the alias query; `NoResultFound` is caught and re-raised as
`ObjectNotFound("Group {} does not exist.")`; `MultipleResultsFound`
propagates uncaught. -/
def get_group_by_name_safe (db : DB) (group_name : String) :
    Except LookupError Group :=
  match one (get_group_by_alias db group_name) with
  | .ok g => .ok g
  | .error .noResultFound =>
    .error (.objectNotFound ("Group " ++ group_name ++ " does not exist."))
  | .error .multipleResultsFound => .error .multipleResultsFound

/-- Embeds `ComplexLogic.get_group_copr_safe(group_name, copr_name)`:
resolve the group, then `.one()` on the group-scoped project query;
`NoResultFound` is caught and re-raised as
`ObjectNotFound("Project {0} does not exist.")`; `MultipleResultsFound`
propagates uncaught. -/
def get_group_copr_safe (db : DB) (group_name copr_name : String) :
    Except LookupError Copr :=
  match get_group_by_name_safe db group_name with
  | .error e => .error e
  | .ok group =>
    match one (get_by_group_id db group.id copr_name) with
    | .ok c => .ok c
    | .error .noResultFound =>
      .error (.objectNotFound ("Project " ++ copr_name ++ " does not exist."))
    | .error .multipleResultsFound => .error .multipleResultsFound

/-- `get_group_copr_safe` with the persisted state threaded through, as
the web framework's request-scoped session would hold it: the operation
performs only reads, so the state it hands back is the state it was
given.  This is the form the frame property is stated over. -/
def get_group_copr_safe_run (db : DB) (group_name copr_name : String) :
    Except LookupError Copr × DB :=
  (get_group_copr_safe db group_name copr_name, db)

/-- The ambient flask session, as read by `get_active_groups_by_user`:
`teams = some names` models `"teams" in flask.session` with
`flask.session["teams"] = names`; `teams = none` models the key being
absent. -/
structure Session where
  teams : Option (List String)
  deriving DecidableEq, Repr

/-- The two result shapes `get_active_groups_by_user` can return: the
literal Python list `[]`, or a lazy query object. -/
inductive GroupsResult where
  | literalList (gs : List Group)
  | queryObject (gs : List Group)
  deriving DecidableEq, Repr

/-- The rows a `GroupsResult` yields when iterated. -/
def GroupsResult.rows : GroupsResult → List Group
  | .literalList gs => gs
  | .queryObject gs => gs

/-- Whether a `GroupsResult` is the lazy query-object shape. -/
def GroupsResult.isQueryObject : GroupsResult → Bool
  | .queryObject _ => true
  | .literalList _ => false

/-- A query issued to the User/Group Repository. -/
inductive RepoQuery where
  | getGroupsByNamesList (names : List String)
  deriving DecidableEq, Repr

/-- Embeds `ComplexLogic.get_active_groups_by_user(user_name)`: if the
session has a `"teams"` list, query the groups with those names and
filter to ones whose membership contains the given user name, returning
the query object; otherwise return the literal empty list.  Also returns
the trace of repository queries issued. -/
def get_active_groups_by_user (db : DB) (session : Session)
    (user_name : String) : GroupsResult × List RepoQuery :=
  match session.teams with
  | some names =>
    let query := get_groups_by_names_list db names
    (.queryObject (query.filter (fun g => user_name ∈ g.members)),
      [.getGroupsByNamesList names])
  | none => (.literalList [], [])

/-- Modelled from the spec: `BuildsLogic.get_build_task_queue()` — the
queryable of builds "in a waiting state (i.e., queued but not yet claimed
by any worker)". -/
def get_build_task_queue (db : DB) : List Build :=
  db.builds.filter (fun b => b.status = .waiting)

/-- Modelled from the spec: `BuildsLogic.get_build_tasks(status)` — the
queryable of builds with the given status. -/
def get_build_tasks (db : DB) (status : BuildStatus) : List Build :=
  db.builds.filter (fun b => b.status = status)

/-- The record returned by `get_queues_size`. -/
structure QueueSizes where
  waiting : Nat
  running : Nat
  importing : Nat
  deriving DecidableEq, Repr

/-- Embeds `ComplexLogic.get_queues_size()`: three independent `.count()`
queries — the build task queue, builds with status `running`, builds with
status `importing`. -/
def get_queues_size (db : DB) : QueueSizes :=
  { waiting := (get_build_task_queue db).length
    running := (get_build_tasks db .running).length
    importing := (get_build_tasks db .importing).length }

/-! ## Concrete fixtures used by witnesses and counterexamples -/

/-- An authorization oracle that grants every request. -/
def rightsAll : Rights :=
  { canDeleteBuild := fun _ _ => true, canDeleteCopr := fun _ _ => true }

/-- The ambient actor used in concrete runs. -/
def userU : User := ⟨"u"⟩

/-- A state with two groups sharing the alias `"g"`. -/
def dbTwoGroups : DB :=
  { coprs := [], builds := [], groups := [⟨1, "g", []⟩, ⟨2, "g", []⟩], users := [] }

/-- A state whose only row is the group `"g"`. -/
def dbGroupOnly : DB :=
  { coprs := [], builds := [], groups := [⟨1, "g", []⟩], users := [] }

/-- A state where group `"g"` owns two projects both named `"p"`. -/
def dbDupProjects : DB :=
  { coprs := [⟨1, "p", some 1, false⟩, ⟨2, "p", some 1, false⟩],
    builds := [], groups := [⟨1, "g", []⟩], users := [] }

/-- A deletable build of project 1. -/
def bOk : Build := ⟨10, 1, .waiting, false⟩

/-- A build of project 1 with an action already in progress on it. -/
def bStuck : Build := ⟨11, 1, .running, true⟩

/-- Another deletable build of project 1. -/
def bLater : Build := ⟨12, 1, .waiting, false⟩

/-- The project whose cascading delete is exercised. -/
def coprX : Copr := ⟨1, "p", none, false⟩

/-- A state where project 1 has two deletable builds. -/
def dbTwoOk : DB := ⟨[coprX], [bOk, bLater], [], []⟩

/-- A state where project 1 has three builds, the middle one stuck. -/
def dbBuilds : DB := ⟨[coprX], [bOk, bStuck, bLater], [], []⟩

/-- `dbBuilds` after the first build has been deleted. -/
def dbAfterOne : DB := ⟨[coprX], [bStuck, bLater], [], []⟩

/-! ## Theorems -/

/-- C3: for every member of the closed SourceType enumeration, `factory`
returns a provider according to the fixed total mapping link→SpecUrl,
upload→SpecUrl, rubygems→RubyGems, pypi→PyPI, scm→Scm, custom→Custom; in
particular the link and upload results coincide. -/
theorem factory_total_mapping :
    factory .link = .ok .SpecUrlProvider ∧
    factory .upload = .ok .SpecUrlProvider ∧
    factory .rubygems = .ok .RubyGemsProvider ∧
    factory .pypi = .ok .PyPIProvider ∧
    factory .scm = .ok .ScmProvider ∧
    factory .custom = .ok .CustomProvider ∧
    factory .link = factory .upload := by
  decide

/-- C4 counterexample: at the unrecognized input `other 0` the factory's
error carries the message "No provider associated with this source type"
(capital N, as written in the source), which is not the claimed message
"no provider associated with this source type". -/
theorem factory_error_message_counterexample :
    factoryErrorMessage (factory (.other 0)) =
      some "No provider associated with this source type" ∧
    factoryErrorMessage (factory (.other 0)) ≠
      some "no provider associated with this source type" := by
  refine ⟨rfl, ?_⟩
  decide

/-- C4 (amended): for every input value that is not a recognized member
of the SourceType enumeration, `factory` fails with the error (the spec's
`ConfigurationError`, a `RuntimeError` in the source) whose message is
"No provider associated with this source type", and this error is
returned to the caller rather than replaced by a default provider. -/
theorem factory_unrecognized_fails (n : Nat) :
    factory (.other n) =
      .error (.runtimeError "No provider associated with this source type") := rfl

/-- C5 counterexample: with two groups aliased `"g"`, the alias lookup
yields more than one match, yet `get_group_by_name_safe` fails with the
uncaught `MultipleResultsFound`, not with an `ObjectNotFound`. -/
theorem get_group_by_name_safe_multiple_counterexample :
    get_group_by_name_safe dbTwoGroups "g" = .error .multipleResultsFound ∧
    isObjectNotFoundErr (get_group_by_name_safe dbTwoGroups "g") = false := by
  decide

/-- C5 (amended): `get_group_by_name_safe` fails with `NotFound` whose
message contains the requested group name when the alias lookup yields
zero matches; it returns the group when the lookup yields exactly one
match; when the lookup yields more than one match it fails with the
lookup's own `MultipleResultsFound`, which is not `NotFound`. -/
theorem get_group_by_name_safe_spec (db : DB) (name : String) :
    (get_group_by_alias db name = [] →
      ∃ pre post, get_group_by_name_safe db name =
        .error (.objectNotFound (pre ++ name ++ post))) ∧
    (∀ g, get_group_by_alias db name = [g] →
      get_group_by_name_safe db name = .ok g) ∧
    (2 ≤ (get_group_by_alias db name).length →
      get_group_by_name_safe db name = .error .multipleResultsFound) := by
  refine ⟨?_, ?_, ?_⟩
  · intro h
    exact ⟨"Group ", " does not exist.", by simp [get_group_by_name_safe, h, one]⟩
  · intro g hg
    simp [get_group_by_name_safe, hg, one]
  · intro h
    match hl : get_group_by_alias db name with
    | [] => rw [hl] at h; simp at h
    | [x] => rw [hl] at h; simp at h
    | x :: y :: rest => simp [get_group_by_name_safe, hl, one]

/-- C5 witness: on the state with no groups, resolving `"nonexistent"`
fails with `NotFound` whose message contains the group name. -/
theorem get_group_by_name_safe_spec_witness :
    ∃ pre post, get_group_by_name_safe ⟨[], [], [], []⟩ "nonexistent" =
      .error (.objectNotFound (pre ++ "nonexistent" ++ post)) :=
  (get_group_by_name_safe_spec ⟨[], [], [], []⟩ "nonexistent").1 rfl

/-- C6 counterexample: group `"g"` resolves uniquely, but the
group-scoped project lookup for `"p"` yields two rows; the operation then
fails with the uncaught `MultipleResultsFound`, not with `NotFound`. -/
theorem get_group_copr_safe_multiple_counterexample :
    get_group_copr_safe dbDupProjects "g" "p" = .error .multipleResultsFound ∧
    isObjectNotFoundErr (get_group_copr_safe dbDupProjects "g" "p") = false := by
  decide

/-- C6 (amended): `get_group_copr_safe` fails with `NotFound` whose
message references the group name when the group lookup yields zero
matches, and with `NotFound` whose message references the project name
when the group resolves uniquely but the project lookup yields zero rows;
when either lookup yields more than one match it fails with the lookup's
own `MultipleResultsFound`, which is not `NotFound`; it returns the
project when both lookups yield exactly one match. -/
theorem get_group_copr_safe_spec (db : DB) (gname pname : String) :
    (get_group_by_alias db gname = [] →
      ∃ pre post, get_group_copr_safe db gname pname =
        .error (.objectNotFound (pre ++ gname ++ post))) ∧
    (∀ g, get_group_by_alias db gname = [g] →
      get_by_group_id db g.id pname = [] →
      ∃ pre post, get_group_copr_safe db gname pname =
        .error (.objectNotFound (pre ++ pname ++ post))) ∧
    (2 ≤ (get_group_by_alias db gname).length →
      get_group_copr_safe db gname pname = .error .multipleResultsFound) ∧
    (∀ g, get_group_by_alias db gname = [g] →
      2 ≤ (get_by_group_id db g.id pname).length →
      get_group_copr_safe db gname pname = .error .multipleResultsFound) ∧
    (∀ g c, get_group_by_alias db gname = [g] →
      get_by_group_id db g.id pname = [c] →
      get_group_copr_safe db gname pname = .ok c) := by
  refine ⟨?_, ?_, ?_, ?_, ?_⟩
  · intro h
    refine ⟨"Group ", " does not exist.", ?_⟩
    simp [get_group_copr_safe, get_group_by_name_safe, h, one]
  · intro g hg hc
    refine ⟨"Project ", " does not exist.", ?_⟩
    simp [get_group_copr_safe, get_group_by_name_safe, hg, hc, one]
  · intro h
    match hl : get_group_by_alias db gname with
    | [] => rw [hl] at h; simp at h
    | [x] => rw [hl] at h; simp at h
    | x :: y :: rest =>
      simp [get_group_copr_safe, get_group_by_name_safe, hl, one]
  · intro g hg h
    match hl : get_by_group_id db g.id pname with
    | [] => rw [hl] at h; simp at h
    | [x] => rw [hl] at h; simp at h
    | x :: y :: rest =>
      simp [get_group_copr_safe, get_group_by_name_safe, hg, hl, one]
  · intro g c hg hc
    simp [get_group_copr_safe, get_group_by_name_safe, hg, hc, one]

/-- C6 witness: group `"g"` exists and project `"nonexistent-project"`
does not; the operation fails with `NotFound` referencing the project
name. -/
theorem get_group_copr_safe_spec_witness :
    ∃ pre post, get_group_copr_safe dbGroupOnly "g" "nonexistent-project" =
      .error (.objectNotFound (pre ++ "nonexistent-project" ++ post)) :=
  (get_group_copr_safe_spec dbGroupOnly "g" "nonexistent-project").2.1
    ⟨1, "g", []⟩ (by decide) (by decide)

/-- C7: when the ambient session holds no `"teams"` list,
`get_active_groups_by_user` yields an empty result (not an error) for
every user name; when the list is present, it yields exactly the groups
whose alias is among those names, filtered to ones whose membership
contains the given user — an empty filtered result being possible. -/
theorem get_active_groups_by_user_spec (db : DB) (s : Session) (u : String) :
    (s.teams = none → (get_active_groups_by_user db s u).1.rows = []) ∧
    (∀ names, s.teams = some names →
      (get_active_groups_by_user db s u).1.rows =
        (get_groups_by_names_list db names).filter (fun g => u ∈ g.members)) := by
  refine ⟨?_, ?_⟩
  · intro h
    simp [get_active_groups_by_user, h, GroupsResult.rows]
  · intro names h
    simp [get_active_groups_by_user, h, GroupsResult.rows]

/-- C7 witness: with no `"teams"` entry in the session, the result is
empty on a state that does contain groups matching the user. -/
theorem get_active_groups_by_user_spec_witness :
    (get_active_groups_by_user
      ⟨[], [], [⟨1, "g", ["alice"]⟩], []⟩ ⟨none⟩ "alice").1.rows = [] :=
  (get_active_groups_by_user_spec
    ⟨[], [], [⟨1, "g", ["alice"]⟩], []⟩ ⟨none⟩ "alice").1 rfl

/-- C8: `get_queues_size` returns a record of exactly three natural
(hence non-negative) counts, each equal to the number of Build rows whose
status is waiting, running, and importing respectively, each computed by
its own independent query. -/
theorem get_queues_size_spec (db : DB) :
    (get_queues_size db).waiting =
      db.builds.countP (fun b => b.status = .waiting) ∧
    (get_queues_size db).running =
      db.builds.countP (fun b => b.status = .running) ∧
    (get_queues_size db).importing =
      db.builds.countP (fun b => b.status = .importing) := by
  refine ⟨?_, ?_, ?_⟩ <;>
    simp [get_queues_size, get_build_task_queue, get_build_tasks,
      List.countP_eq_length_filter]

/-- C9: `get_group_copr_safe` never mutates persisted state: for every
input and every outcome, the stored projects, builds, users and groups
after the call are identical to those before it. -/
theorem get_group_copr_safe_no_mutation (db : DB) (gname pname : String) :
    (get_group_copr_safe_run db gname pname).2.coprs = db.coprs ∧
    (get_group_copr_safe_run db gname pname).2.builds = db.builds ∧
    (get_group_copr_safe_run db gname pname).2.users = db.users ∧
    (get_group_copr_safe_run db gname pname).2.groups = db.groups := by
  refine ⟨rfl, rfl, rfl, rfl⟩

/-- C10: when the ambient session has no `"teams"` entry,
`get_active_groups_by_user` issues no query to the User/Group Repository
and returns the literal empty list, whose shape differs from the query
object returned when `"teams"` is present. -/
theorem get_active_groups_by_user_no_query (db : DB) (s s2 : Session)
    (u : String) (h : s.teams = none) (h2 : s2.teams ≠ none) :
    get_active_groups_by_user db s u = (GroupsResult.literalList [], []) ∧
    (get_active_groups_by_user db s u).1.isQueryObject = false ∧
    (get_active_groups_by_user db s2 u).1.isQueryObject = true := by
  refine ⟨?_, ?_, ?_⟩
  · simp [get_active_groups_by_user, h]
  · simp [get_active_groups_by_user, h, GroupsResult.isQueryObject]
  · match h3 : s2.teams with
    | none => exact absurd h3 h2
    | some names => simp [get_active_groups_by_user, h3, GroupsResult.isQueryObject]

/-- C10 witness: concrete sessions without and with a `"teams"` list. -/
theorem get_active_groups_by_user_no_query_witness :
    get_active_groups_by_user ⟨[], [], [⟨1, "t", ["bob"]⟩], []⟩ ⟨none⟩ "bob" =
      (GroupsResult.literalList [], []) ∧
    (get_active_groups_by_user
      ⟨[], [], [⟨1, "t", ["bob"]⟩], []⟩ ⟨none⟩ "bob").1.isQueryObject = false ∧
    (get_active_groups_by_user
      ⟨[], [], [⟨1, "t", ["bob"]⟩], []⟩ ⟨some ["t"]⟩ "bob").1.isQueryObject = true :=
  get_active_groups_by_user_no_query ⟨[], [], [⟨1, "t", ["bob"]⟩], []⟩
    ⟨none⟩ ⟨some ["t"]⟩ "bob" rfl (by decide)

/-! ## Lemmas about the cascading delete -/

/-- A successful `delete_build` removes exactly the build rows with the
target's id and touches nothing else. -/
theorem delete_build_ok_state (rights : Rights) (user : User) (b : Build)
    (db db' : DB) (h : delete_build rights db user b = .ok db') :
    db'.builds = db.builds.filter (fun x => x.id ≠ b.id) ∧
    db'.coprs = db.coprs ∧ db'.groups = db.groups ∧ db'.users = db.users := by
  unfold delete_build at h
  split at h
  · simp at h
  · split at h
    · injection h with h
      subst h
      exact ⟨rfl, rfl, rfl, rfl⟩
    · simp at h

/-- The build-deletion loop never changes the stored projects. -/
theorem delete_builds_loop_coprs (rights : Rights) (user : User) (db : DB)
    (bs : List Build) :
    (delete_builds_loop rights user db bs).1.coprs = db.coprs := by
  induction bs generalizing db with
  | nil => simp [delete_builds_loop]
  | cons b bs ih =>
    cases hd : delete_build rights db user b with
    | error e => simp [delete_builds_loop, hd]
    | ok dbx =>
      have hc := (delete_build_ok_state rights user b db dbx hd).2.1
      simp only [delete_builds_loop, hd]
      rw [ih dbx, hc]

/-- The build-deletion loop emits only `deleteBuild` events. -/
theorem delete_builds_loop_no_copr_event (rights : Rights) (user : User)
    (db : DB) (bs : List Build) (un : String) (ci : Nat) :
    Event.deleteCopr un ci ∉ (delete_builds_loop rights user db bs).2.2 := by
  induction bs generalizing db with
  | nil => simp [delete_builds_loop]
  | cons b bs ih =>
    cases hd : delete_build rights db user b with
    | error e => simp [delete_builds_loop, hd]
    | ok dbx =>
      simp only [delete_builds_loop, hd, List.mem_cons, not_or]
      exact ⟨by simp, ih dbx⟩

/-- When every deletion succeeds, the loop's trace is one `deleteBuild`
invocation per build, in list order. -/
theorem delete_builds_loop_success_trace (rights : Rights) (user : User)
    (db : DB) (bs : List Build)
    (h : (delete_builds_loop rights user db bs).2.1 = none) :
    (delete_builds_loop rights user db bs).2.2 =
      bs.map (fun b => Event.deleteBuild user.name b.id) := by
  induction bs generalizing db with
  | nil => simp [delete_builds_loop]
  | cons b bs ih =>
    cases hd : delete_build rights db user b with
    | error e => simp [delete_builds_loop, hd] at h
    | ok dbx =>
      simp only [delete_builds_loop, hd] at h ⊢
      rw [List.map_cons]
      exact congrArg _ (ih dbx h)

/-- Splitting the loop at a successfully processed prefix. -/
theorem delete_builds_loop_append (rights : Rights) (user : User)
    (pre : List Build) :
    ∀ (db db1 : DB) (evs : List Event) (rest : List Build),
      delete_builds_loop rights user db pre = (db1, none, evs) →
      delete_builds_loop rights user db (pre ++ rest) =
        ((delete_builds_loop rights user db1 rest).1,
          (delete_builds_loop rights user db1 rest).2.1,
          evs ++ (delete_builds_loop rights user db1 rest).2.2) := by
  induction pre with
  | nil =>
    intro db db1 evs rest h
    simp only [delete_builds_loop, Prod.mk.injEq] at h
    obtain ⟨h1, _, h3⟩ := h
    subst h1
    subst h3
    simp
  | cons b bs ih =>
    intro db db1 evs rest h
    cases hd : delete_build rights db user b with
    | error e => simp [delete_builds_loop, hd] at h
    | ok dbx =>
      simp only [delete_builds_loop, hd, Prod.mk.injEq] at h
      obtain ⟨h1, h2, h3⟩ := h
      have hbs : delete_builds_loop rights user dbx bs =
          (db1, none, (delete_builds_loop rights user dbx bs).2.2) := by
        rw [← h1, ← h2]
      have hih := ih dbx db1 ((delete_builds_loop rights user dbx bs).2.2) rest hbs
      simp only [List.cons_append, delete_builds_loop, hd, hih]
      rw [← h3]
      simp [hih]

/-- A build whose id is not among the loop's targets survives the loop. -/
theorem delete_builds_loop_mem_builds (rights : Rights) (user : User)
    (bs : List Build) :
    ∀ (db : DB) (x : Build), x ∈ db.builds → x.id ∉ bs.map Build.id →
      x ∈ (delete_builds_loop rights user db bs).1.builds := by
  induction bs with
  | nil =>
    intro db x hx _
    simpa [delete_builds_loop] using hx
  | cons b bs ih =>
    intro db x hx hid
    simp only [List.map_cons, List.mem_cons, not_or] at hid
    obtain ⟨hid1, hid2⟩ := hid
    cases hd : delete_build rights db user b with
    | error e => simpa [delete_builds_loop, hd] using hx
    | ok dbx =>
      have hst := delete_build_ok_state rights user b db dbx hd
      simp only [delete_builds_loop, hd]
      apply ih dbx x _ hid2
      rw [hst.1]
      simp [List.mem_filter, hx, hid1]

/-- C1: for every project with its associated builds, `delete_copr`
invokes the build-deletion operation, with the ambient actor, on every
associated build before it invokes the project-deletion primitive: if the
project-deletion invocation appears in the run's trace at all, the trace
is exactly one `deleteBuild` per associated build, in order, followed by
the single `deleteCopr` invocation. -/
theorem delete_copr_builds_before_project (rights : Rights) (db : DB)
    (user : User) (copr : Copr)
    (h : Event.deleteCopr user.name copr.id ∈
      (delete_copr rights db user copr).2.2) :
    (delete_copr rights db user copr).2.2 =
      (get_multiple_by_copr db copr).map
        (fun b => Event.deleteBuild user.name b.id)
        ++ [Event.deleteCopr user.name copr.id] := by
  cases herr : (delete_builds_loop rights user db
      (get_multiple_by_copr db copr)).2.1 with
  | some e =>
    have htr : (delete_copr rights db user copr).2.2 =
        (delete_builds_loop rights user db
          (get_multiple_by_copr db copr)).2.2 := by
      simp only [delete_copr]
      rw [herr]
    rw [htr] at h
    exact absurd h (delete_builds_loop_no_copr_event rights user db _ _ _)
  | none =>
    have htr : (delete_copr rights db user copr).2.2 =
        (delete_builds_loop rights user db
          (get_multiple_by_copr db copr)).2.2
          ++ [Event.deleteCopr user.name copr.id] := by
      simp only [delete_copr]
      rw [herr]
      cases delete_unsafe rights
          (delete_builds_loop rights user db (get_multiple_by_copr db copr)).1
          user copr <;> rfl
    rw [htr, delete_builds_loop_success_trace rights user db _ herr]

/-- C1 witness: a project with two deletable builds; the trace is both
build deletions followed by the project deletion. -/
theorem delete_copr_builds_before_project_witness :
    Event.deleteCopr userU.name coprX.id ∈
      (delete_copr rightsAll dbTwoOk userU coprX).2.2 ∧
    (delete_copr rightsAll dbTwoOk userU coprX).2.2 =
      (get_multiple_by_copr dbTwoOk coprX).map
        (fun b => Event.deleteBuild userU.name b.id)
        ++ [Event.deleteCopr userU.name coprX.id] :=
  ⟨by decide,
    delete_copr_builds_before_project rightsAll dbTwoOk userU coprX (by decide)⟩

/-- C2: if, while `delete_copr` processes the builds, deletion of some
build `b` fails with `ActionInProgress` or `InsufficientRights`, the
whole operation aborts propagating that error, no build after `b` is
processed (the trace ends at the failing invocation), the stored projects
are unchanged, and `b` together with every not-yet-processed build
remains persisted (assuming build ids are unique, as primary keys are). -/
theorem delete_copr_abort_on_build_failure (rights : Rights) (db : DB)
    (user : User) (copr : Copr) (pre : List Build) (b : Build)
    (post : List Build) (e : DeleteError) (db1 : DB) (evs : List Event)
    (hnodup : (db.builds.map Build.id).Nodup)
    (hsplit : get_multiple_by_copr db copr = pre ++ b :: post)
    (hpre : delete_builds_loop rights user db pre = (db1, none, evs))
    (hfail : delete_build rights db1 user b = .error e) :
    delete_copr rights db user copr =
      (db1, some e, evs ++ [Event.deleteBuild user.name b.id]) ∧
    db1.coprs = db.coprs ∧
    ∀ x, x ∈ b :: post → x ∈ db1.builds := by
  have happ :=
    delete_builds_loop_append rights user pre db db1 evs (b :: post) hpre
  have hloopcons : delete_builds_loop rights user db1 (b :: post) =
      (db1, some e, [Event.deleteBuild user.name b.id]) := by
    simp [delete_builds_loop, hfail]
  have hfull : delete_builds_loop rights user db
      (get_multiple_by_copr db copr) =
      (db1, some e, evs ++ [Event.deleteBuild user.name b.id]) := by
    rw [hsplit, happ, hloopcons]
  refine ⟨?_, ?_, ?_⟩
  · simp only [delete_copr]
    rw [hfull]
  · have hp : (delete_builds_loop rights user db pre).1 = db1 := by rw [hpre]
    rw [← hp, delete_builds_loop_coprs]
  · intro x hx
    have hxm : x ∈ get_multiple_by_copr db copr := by
      rw [hsplit]
      exact List.mem_append_right _ hx
    have hxd : x ∈ db.builds := List.mem_of_mem_filter hxm
    have hnd2 : ((pre ++ b :: post).map Build.id).Nodup := by
      rw [← hsplit]
      exact List.Nodup.sublist
        (List.Sublist.map Build.id (List.filter_sublist db.builds)) hnodup
    rw [List.map_append] at hnd2
    have hdisj := (List.nodup_append.mp hnd2).2.2
    have hid : x.id ∉ pre.map Build.id := by
      intro hmem
      exact hdisj hmem (List.mem_map_of_mem Build.id hx)
    have hsurv :=
      delete_builds_loop_mem_builds rights user pre db x hxd hid
    rw [hpre] at hsurv
    exact hsurv

/-- C2 witness: three builds; the first deletes, the second has an action
in progress, so the run aborts with `ActionInProgress`, the project and
the last two builds persist, and the trace stops at the failing build. -/
theorem delete_copr_abort_on_build_failure_witness :
    delete_copr rightsAll dbBuilds userU coprX =
      (dbAfterOne, some .actionInProgress,
        [Event.deleteBuild "u" 10, Event.deleteBuild "u" 11]) ∧
    dbAfterOne.coprs = dbBuilds.coprs ∧
    bStuck ∈ dbAfterOne.builds ∧ bLater ∈ dbAfterOne.builds := by
  have h := delete_copr_abort_on_build_failure rightsAll dbBuilds userU coprX
    [bOk] bStuck [bLater] .actionInProgress dbAfterOne
    [Event.deleteBuild "u" 10] (by decide) (by decide) (by decide) (by decide)
  exact ⟨h.1, h.2.1, h.2.2 bStuck (by decide), h.2.2 bLater (by decide)⟩

end CoprRepo
